import Mathlib

/-!
Verification of the MyTube video-gallery application (src/app.py).

The embedding below translates the embed-normalization functions
(`normalize_embed`, `force_provider_embed`), the engagement routes
(`like`, `watch`, `comment`), and the playlist navigator
(`get_next_in_playlist_id`) into Lean.  Python strings are Lean
`String`s (worked on as `List Char`); the standard-library pieces the
code relies on (`urllib.parse.urlparse`, `parse_qs`, `str.strip`,
`re.search` on the three fixed patterns) are modelled char-by-char
after CPython's algorithms.  Database state is modelled as explicit
lists of rows; the oEmbed network fetchers are oracle parameters of
type `String → Option String` (`none` = any failure caught by the
`except` block).
-/

namespace MyTube

/-! ### Python string primitives -/

/-- Whitespace recognized by Python `str.strip()` (restricted to the ASCII
whitespace characters; the code never feeds Unicode whitespace here). -/
def pySpaceChar (c : Char) : Bool :=
  c = ' ' || c = '\t' || c = '\n' || c = '\r' || c = '\x0b' || c = '\x0c'

/-- Model of Python `s.strip()`. -/
def pyStrip (s : String) : String :=
  String.mk (((s.data.dropWhile pySpaceChar).reverse.dropWhile pySpaceChar).reverse)

/-- Model of Python `s.lower()` (ASCII range; the code only lowercases
hostnames and provider choices). -/
def pyLower (s : String) : String := String.mk (s.data.map Char.toLower)

/-- Model of Python `s[:n]`. -/
def pySlice (n : Nat) (s : String) : String := String.mk (s.data.take n)

/-- Does `needle` occur at the head of `hay`? -/
def leadsTo : List Char → List Char → Bool
  | [], _ => true
  | _ :: _, [] => false
  | a :: as, b :: bs => a = b && leadsTo as bs

/-- Does `needle` occur anywhere inside `hay`?  Model of Python `needle in hay`. -/
def infixIn (needle : List Char) : List Char → Bool
  | [] => leadsTo needle []
  | b :: bs => leadsTo needle (b :: bs) || infixIn needle bs

/-- String-level wrapper for `infixIn`. -/
def substrIn (needle hay : String) : Bool := infixIn needle.data hay.data

/-- Split at the first occurrence of `c`: `some (before, after)`, or `none`
when `c` does not occur. -/
def splitAtFirst (c : Char) : List Char → Option (List Char × List Char)
  | [] => none
  | a :: as =>
    if a = c then some ([], as)
    else
      match splitAtFirst c as with
      | none => none
      | some (pre, post) => some (a :: pre, post)

/-- Everything before the first occurrence of `c` (the whole list when absent):
Python `s.partition(c)[0]`. -/
def takeBefore (c : Char) (l : List Char) : List Char := l.takeWhile (· ≠ c)

/-- Everything after the last occurrence of `c` (the whole list when absent):
Python `s.rpartition(c)[2]`. -/
def afterLastChar (c : Char) (l : List Char) : List Char :=
  (l.reverse.takeWhile (· ≠ c)).reverse

/-- Split on every occurrence of `c`: Python `s.split(c)`. -/
def splitOn (c : Char) : List Char → List (List Char)
  | [] => [[]]
  | a :: as =>
    let r := splitOn c as
    if a = c then [] :: r
    else
      match r with
      | [] => [[a]]
      | h :: t => (a :: h) :: t

/-- ASCII letter test (Python `c.isascii() and c.isalpha()`). -/
def asciiAlpha (c : Char) : Bool :=
  ('a' ≤ c && c ≤ 'z') || ('A' ≤ c && c ≤ 'Z')

/-- ASCII digit test. -/
def asciiDigit (c : Char) : Bool := '0' ≤ c && c ≤ '9'

/-- Characters legal in a URL scheme (`urllib.parse.scheme_chars`). -/
def schemeChar (c : Char) : Bool :=
  asciiAlpha c || asciiDigit c || c = '+' || c = '-' || c = '.'

/-! ### Model of `urllib.parse.urlparse` (the fields the code reads) -/

/-- The fields of a `ParseResult` that `normalize_embed` reads:
`hostname` (lowercased, `""` standing for Python's `None`), `path`
(with `;params` already split off, as `urlparse` does), and `query`. -/
structure PyUrl where
  hostname : String
  path : String
  query : String
deriving Repr, DecidableEq

/-- Strip a leading `scheme:` when the text before the first `:` is a valid
scheme (nonempty, starts with an ASCII letter, all scheme chars); otherwise
return the input unchanged.  Mirrors the scheme test in `urlsplit`. -/
def dropScheme (cs : List Char) : List Char :=
  match splitAtFirst ':' cs with
  | none => cs
  | some (pre, post) =>
    match pre with
    | [] => cs
    | p0 :: _ => if asciiAlpha p0 && pre.all schemeChar then post else cs

/-- Model of `urllib.parse._splitparams`: remove the `;params` suffix of the
last path segment (only called when `;` occurs in the path). -/
def splitParamsOff (p : List Char) : List Char :=
  if p.contains ';' then
    if p.contains '/' then
      let after := (p.reverse.takeWhile (· ≠ '/')).reverse
      let before := p.take (p.length - after.length)
      if after.contains ';' then before ++ takeBefore ';' after else p
    else takeBefore ';' p
  else p

/-- Hostname extraction from a netloc, as in `SplitResult.hostname`:
drop userinfo up to the last `@`; a bracketed IPv6 host is the text between
`[` and `]`; otherwise everything before the first `:` (the port).
Lowercased. -/
def hostOfNetloc (netloc : List Char) : String :=
  let hostinfo := afterLastChar '@' netloc
  let host :=
    if hostinfo.contains '[' then
      match splitAtFirst '[' hostinfo with
      | some (_, bracketed) => takeBefore ']' bracketed
      | none => hostinfo
    else takeBefore ':' hostinfo
  String.mk (host.map Char.toLower)

/-- Model of `urllib.parse.urlparse` restricted to the fields the code uses.
Returns `none` exactly when CPython raises `ValueError("Invalid IPv6 URL")`
(a `[` in the netloc without `]` or vice versa).  Follows `urlsplit`:
remove `\t\r\n`, split the scheme, take the netloc after `//` up to the
first of `/?#`, drop the fragment after `#`, split the query at the first
`?`, and split `;params` off the path. -/
def pyUrlparse (url : String) : Option PyUrl :=
  let cs := url.data.filter (fun c => c ≠ '\t' && c ≠ '\r' && c ≠ '\n')
  let cs := dropScheme cs
  let netlocRest : List Char × List Char :=
    match cs with
    | '/' :: '/' :: rest =>
      (rest.takeWhile (fun c => c ≠ '/' && c ≠ '?' && c ≠ '#'),
       rest.dropWhile (fun c => c ≠ '/' && c ≠ '?' && c ≠ '#'))
    | _ => ([], cs)
  let netloc := netlocRest.1
  if (netloc.contains '[') != (netloc.contains ']') then none
  else
    let rest := takeBefore '#' netlocRest.2
    let pathQuery : List Char × List Char :=
      match splitAtFirst '?' rest with
      | none => (rest, [])
      | some (pre, post) => (pre, post)
    some
      { hostname := hostOfNetloc netloc
        path := String.mk (splitParamsOff pathQuery.1)
        query := String.mk pathQuery.2 }

/-! ### Model of `urllib.parse.parse_qs` (first value of the `v` key) -/

/-- Value of one hex digit, as accepted by `urllib.parse.unquote`
(`0-9`, `a-f`, `A-F`; anything else is not an escape). -/
def pyHexVal (c : Char) : Option Nat :=
  let n := c.toNat
  if 48 ≤ n && n ≤ 57 then some (n - 48)
  else if 97 ≤ n && n ≤ 102 then some (n - 87)
  else if 65 ≤ n && n ≤ 70 then some (n - 55)
  else none

/-- Percent-decoding: each valid `%XX` pair becomes the character with that
byte value (bytes ≥ 0x80 are modelled bytewise rather than re-assembled as
UTF-8 sequences); an invalid escape is left as literal text, as in
`urllib.parse.unquote`. -/
def pctDecode : List Char → List Char
  | [] => []
  | '%' :: a :: b :: rest =>
    match pyHexVal a, pyHexVal b with
    | some x, some y => Char.ofNat (16 * x + y) :: pctDecode rest
    | _, _ => '%' :: pctDecode (a :: b :: rest)
  | c :: rest => c :: pctDecode rest

/-- Model of `urllib.parse.unquote(s.replace('+', ' '))`, the decoding
`parse_qsl` applies to each name and value. -/
def unquotePlus (s : List Char) : List Char :=
  pctDecode (s.map (fun c => if c = '+' then ' ' else c))

/-- The name/value pairs `parse_qsl` produces from a query string with the
default options: split fields on `&`, skip empty fields, skip fields with
no `=`, skip blank values, percent-decode names and values. -/
def qsPairs (query : List Char) : List (String × String) :=
  (splitOn '&' query).filterMap fun f =>
    if f.isEmpty then none
    else
      match splitAtFirst '=' f with
      | none => none
      | some (n, v) =>
        if v.isEmpty then none
        else some (String.mk (unquotePlus n), String.mk (unquotePlus v))

/-- Model of `(parse_qs(query).get("v") or [None])[0]`: the first surviving
value of the key `v`, when present. -/
def qsV (query : List Char) : Option String :=
  ((qsPairs query).find? (fun p => p.1 == "v")).map (·.2)

/-! ### Models of the three fixed `re.search` patterns -/

/-- Leftmost match of the pattern `<lit>([^/?]+)`: at each position, the
literal must match and be followed by a nonempty run of characters other
than `/` and `?`; the capture is that run.  Used for `/shorts/([^/?]+)`
and `/share/([^/?]+)`. -/
def scanSeg (lit : List Char) : List Char → Option (List Char)
  | [] => none
  | c :: rest =>
    if leadsTo lit (c :: rest) then
      let run := ((c :: rest).drop lit.length).takeWhile fun ch => ch ≠ '/' && ch ≠ '?'
      if run.isEmpty then scanSeg lit rest else some run
    else scanSeg lit rest

/-- Leftmost match of `/(\d+)` (ASCII digits): a `/` followed by a nonempty
digit run; the capture is the run. -/
def scanDigits : List Char → Option (List Char)
  | [] => none
  | c :: rest =>
    if c = '/' then
      let run := rest.takeWhile asciiDigit
      if run.isEmpty then scanDigits rest else some run
    else scanDigits rest

/-- Python `path.strip("/")`. -/
def stripSlashes (l : List Char) : List Char :=
  ((l.dropWhile (· = '/')).reverse.dropWhile (· = '/')).reverse

/-- Python `path.strip("/").split("/")[0]`. -/
def firstSeg (l : List Char) : List Char := (stripSlashes l).takeWhile (· ≠ '/')

/-! ### `normalize_embed` and `force_provider_embed` (src/app.py) -/

/-- The exceptions `normalize_embed` can raise: `emptyUrl` is
`ValueError(t("empty_url"))` for a blank input, `invalidUrl` is the
`ValueError("Invalid IPv6 URL")` that `urlparse` raises on a netloc with
unbalanced square brackets. -/
inductive EmbedErr
  | emptyUrl
  | invalidUrl
deriving Repr, DecidableEq

/-- Body of `normalize_embed` after the blank check and `urlparse` call:
the provider-detection cascade.  `url` is the stripped source URL, `parsed`
the parse result.  The `if`s for youtube/youtu.be/vimeo/loom fall through
to the next rule when no id is extracted, exactly as in the source. -/
def normCore (url : String) (parsed : PyUrl) : String × String :=
  let host := pyLower parsed.hostname
  if substrIn "reddit.com" host || substrIn "redd.it" host then ("reddit", url)
  else if substrIn "tiktok.com" host then ("tiktok", url)
  else
    let ytv : Option String :=
      if substrIn "youtube.com" host then
        match qsV parsed.query.data with
        | some v => some v
        | none => (scanSeg "/shorts/".data parsed.path.data).map String.mk
      else none
    match ytv with
    | some vid => ("youtube", "https://www.youtube.com/embed/" ++ vid)
    | none =>
      let bev : Option String :=
        if substrIn "youtu.be" host then
          let vid := firstSeg parsed.path.data
          if vid.isEmpty then none else some (String.mk vid)
        else none
      match bev with
      | some vid => ("youtube", "https://www.youtube.com/embed/" ++ vid)
      | none =>
        let viv : Option String :=
          if substrIn "vimeo.com" host then (scanDigits parsed.path.data).map String.mk
          else none
        match viv with
        | some vid => ("vimeo", "https://player.vimeo.com/video/" ++ vid)
        | none =>
          let lov : Option String :=
            if substrIn "loom.com" host then (scanSeg "/share/".data parsed.path.data).map String.mk
            else none
          match lov with
          | some vid => ("loom", "https://www.loom.com/embed/" ++ vid)
          | none => ("custom", url)

/-- Model of `normalize_embed(source_url)`: strip, fail on blank, parse
(propagating `urlparse`'s bracket error), then run the provider cascade. -/
def normalize_embed (source_url : String) : Except EmbedErr (String × String) :=
  let url := pyStrip source_url
  if url = "" then .error .emptyUrl
  else
    match pyUrlparse url with
    | none => .error .invalidUrl
    | some parsed => .ok (normCore url parsed)

/-- Model of `force_provider_embed(provider_choice, source_url)`.
The oEmbed fetchers `reddit_oembed_html` / `tiktok_oembed_html` are oracle
parameters `rf` / `tf`; `none` models every caught failure (network error,
non-JSON body, timeout) and `data.get("html")` returning `None`, so
`(rf url).getD ""` is Python's `reddit_oembed_html(url) or ""`. -/
def force_provider_embed (rf tf : String → Option String)
    (provider_choice source_url : String) : Except EmbedErr (String × String × String) :=
  let choice := pyLower (pyStrip provider_choice)
  let url := pyStrip source_url
  if choice = "" ∨ choice = "auto" then
    match normalize_embed url with
    | .error e => .error e
    | .ok (provider, embed_url) =>
      let st1 : String × String :=
        if provider = "reddit" then
          let h := (rf url).getD ""
          (if h = "" then "custom" else provider, h)
        else (provider, "")
      let st2 : String × String :=
        if st1.1 = "tiktok" then
          let h := (tf url).getD ""
          (if h = "" then "custom" else st1.1, h)
        else st1
      .ok (st2.1, embed_url, st2.2)
  else if choice = "reddit" then
    let h := (rf url).getD ""
    if h ≠ "" then .ok ("reddit", url, h) else .ok ("custom", url, "")
  else if choice = "tiktok" then
    let h := (tf url).getD ""
    if h ≠ "" then .ok ("tiktok", url, h) else .ok ("custom", url, "")
  else if choice = "youtube" then
    match normalize_embed url with
    | .error e => .error e
    | .ok (p, e) => if p = "youtube" then .ok ("youtube", e, "") else .ok ("youtube", url, "")
  else if choice = "vimeo" then
    match normalize_embed url with
    | .error e => .error e
    | .ok (p, e) => if p = "vimeo" then .ok ("vimeo", e, "") else .ok ("vimeo", url, "")
  else if choice = "loom" then
    match normalize_embed url with
    | .error e => .error e
    | .ok (p, e) => if p = "loom" then .ok ("loom", e, "") else .ok ("loom", url, "")
  else .ok ("custom", url, "")

/-! ### Engagement ledger: the `like` route (src/app.py) -/

/-- Database state touched by the `like` route: the `videos` table as
`(id, likes)` pairs and the `video_likes` table as `(user_id, video_id)`
rows (the `created_at` column plays no role in the claims). -/
structure LikeState where
  videos : List (Nat × Nat)
  video_likes : List (Nat × Nat)
deriving Repr, DecidableEq

/-- `SELECT likes FROM videos WHERE id=?` with the route's
`int(likes_row["likes"]) if likes_row else 0` fallback. -/
def likesOf (st : LikeState) (video_id : Nat) : Nat :=
  (((st.videos.find? fun p => p.1 == video_id).map (·.2)).getD 0)

/-- Responses the `like` route can produce: `notFound` is `abort(404)`;
`loginRequired401` is the JSON `{"ok": false, "error": "login_required"}`
with HTTP 401; `loginRedirect` is `flash(t("like_requires_login"))` plus a
redirect back to the watch page; `okJson` carries the JSON success payload;
`okRedirect` is the non-AJAX success redirect. -/
inductive LikeResp
  | notFound
  | loginRequired401
  | loginRedirect
  | okJson (ok : Bool) (likes : Nat) (liked : Bool)
  | okRedirect
deriving Repr, DecidableEq

/-- Model of the `like` route.  `user` is `current_user()` (its id),
`wantsJson` the AJAX detection on the request headers.  A duplicate
`(user, video)` row makes the `INSERT` raise a unique violation, which the
route treats as success (`liked_now = True`) without touching the counter;
otherwise the row insert and the `likes = likes + 1` update commit
together. -/
def like (st : LikeState) (user : Option Nat) (wantsJson : Bool) (video_id : Nat) :
    LikeState × LikeResp :=
  match st.videos.find? fun p => p.1 == video_id with
  | none => (st, .notFound)
  | some _ =>
    match user with
    | none => (st, if wantsJson then .loginRequired401 else .loginRedirect)
    | some uid =>
      let dup := st.video_likes.any fun r => r.1 == uid && r.2 == video_id
      let st' :=
        if dup then st
        else
          { videos := st.videos.map fun p => if p.1 == video_id then (p.1, p.2 + 1) else p
            video_likes := (uid, video_id) :: st.video_likes }
      (st', if wantsJson then .okJson true (likesOf st' video_id) true else .okRedirect)

/-- Counter/row consistency for the like ledger: every video's `likes`
column equals the number of `video_likes` rows for that video. -/
def likesInv (st : LikeState) : Prop :=
  ∀ p ∈ st.videos, p.2 = (st.video_likes.filter fun r => r.2 == p.1).length

/-! ### Engagement ledger: the `watch` route (src/app.py) -/

/-- One `watch_history` row: `(user_id, video_id)` is unique, `t` is
`last_watched_at` (timestamps abstracted to `Nat`), `count` is
`watch_count`. -/
structure WatchRow where
  user_id : Nat
  video_id : Nat
  t : Nat
  count : Nat
deriving Repr, DecidableEq

/-- Database state touched by the `watch` route: `videos` as `(id, views)`
pairs and the `watch_history` table. -/
structure WatchState where
  videos : List (Nat × Nat)
  history : List WatchRow
deriving Repr, DecidableEq

/-- Model of the `watch` route's state changes.  `noview` is the
`?noview=1` flag suppressing the view increment; `now` is
`datetime.utcnow()`.  The history write is the
`INSERT ... ON CONFLICT(user_id, video_id) DO UPDATE SET
last_watched_at = excluded.last_watched_at, watch_count = watch_count + 1`
upsert, executed only for signed-in users.  Returns the new state and
whether the video was found (`False` = `abort(404)`). -/
def watch (st : WatchState) (user : Option Nat) (noview : Bool) (now : Nat)
    (video_id : Nat) : WatchState × Bool :=
  match st.videos.find? fun p => p.1 == video_id with
  | none => (st, false)
  | some _ =>
    let videos :=
      if noview then st.videos
      else st.videos.map fun p => if p.1 == video_id then (p.1, p.2 + 1) else p
    let history :=
      match user with
      | none => st.history
      | some uid =>
        if st.history.any fun r => r.user_id == uid && r.video_id == video_id then
          st.history.map fun r =>
            if r.user_id == uid && r.video_id == video_id then
              { r with t := now, count := r.count + 1 }
            else r
        else st.history ++ [⟨uid, video_id, now, 1⟩]
    ({ videos := videos, history := history }, true)

/-! ### The `comment` route (src/app.py) -/

/-- The two UI languages (`SUPPORTED_LANGS = ("sv", "en")`); `get_lang`
falls back to `sv`. -/
inductive Lang
  | sv
  | en
deriving Repr, DecidableEq

/-- The `t("anon")` translation: `"Anonym"` in the Swedish table,
`"Anonymous"` in the English one. -/
def tAnon : Lang → String
  | .sv => "Anonym"
  | .en => "Anonymous"

/-- Model of the `comment` route's author/body handling for an existing
video.  `username` is the signed-in user's name (when signed in).  A blank
body flashes `comment_empty` and inserts nothing (`none`); otherwise the
stored `(author, body)` pair is returned: author falls back to the
username and then to `t("anon")`, and the insert truncates with
`author[:50]` and `body[:1000]`. -/
def comment (lang : Lang) (username : Option String) (author_form body_form : String) :
    Option (String × String) :=
  let author := pyStrip author_form
  let body := pyStrip body_form
  if body = "" then none
  else
    let author :=
      match username with
      | some u => if author = "" then u else author
      | none => author
    let author := if author = "" then tAnon lang else author
    some (pySlice 50 author, pySlice 1000 body)

/-! ### Playlist navigator: `get_next_in_playlist_id` (src/app.py) -/

/-- One `playlist_items` row; `(playlist_id, video_id)` is unique in the
schema, `position` is the admin-assigned integer order key. -/
structure PItem where
  playlist_id : Nat
  video_id : Nat
  position : Int
deriving Repr, DecidableEq

/-- `ORDER BY position ASC LIMIT 1`: an element of minimal `position`
(the first such, matching a deterministic refinement of the unordered
tie case). -/
def minByPos : List PItem → Option PItem
  | [] => none
  | x :: xs =>
    match minByPos xs with
    | none => some x
    | some m => if m.position < x.position then some m else some x

/-- Model of `get_next_in_playlist_id(db, playlist_id, current_video_id)`:
fetch the current row's position (`None` when the video is not a member),
then the member video with the smallest position strictly greater than
it. -/
def get_next_in_playlist_id (items : List PItem) (playlist_id current_video_id : Nat) :
    Option Nat :=
  match items.find? fun it => it.playlist_id == playlist_id && it.video_id == current_video_id with
  | none => none
  | some cur =>
    (minByPos (items.filter fun it =>
      it.playlist_id == playlist_id && cur.position < it.position)).map (·.video_id)

/-! ### Helper lemmas -/

/-- Unfolding of `normalize_embed` on a stripped, nonempty, parseable URL. -/
theorem normalize_embed_ok (url : String) (parsed : PyUrl)
    (h1 : pyStrip url = url) (h2 : url ≠ "") (h3 : pyUrlparse url = some parsed) :
    normalize_embed url = .ok (normCore url parsed) := by
  unfold normalize_embed
  simp only [h1, h3, if_neg h2]

/-- For the three resolver-backed explicit choices, `force_provider_embed`
reduces to the requested-tag/fallback shape around `normalize_embed`. -/
theorem force_explicit_match (rf tf : String → Option String) (url : String) (c : String)
    (hc : c = "youtube" ∨ c = "vimeo" ∨ c = "loom") :
    force_provider_embed rf tf c url =
      match normalize_embed (pyStrip url) with
      | .error e => .error e
      | .ok (p, e) => if p = c then .ok (c, e, "") else .ok (c, pyStrip url, "") := by
  rcases hc with rfl | rfl | rfl <;> rfl

/-! ### Claim 2 -/

/-- C2 (amended): for every source URL that is nonempty after trimming and
that `urlparse` accepts, an explicit choice of `youtube`, `vimeo`, or `loom`
returns the requested provider tag, with embedUrl equal to the Resolver's
canonical embed URL when the Resolver detects that same provider and equal
to the raw source url otherwise, and embedHtml always empty. -/
theorem claim2_explicit_provider_honored (rf tf : String → Option String) (c url : String)
    (parsed : PyUrl)
    (hc : c = "youtube" ∨ c = "vimeo" ∨ c = "loom")
    (hurl : pyStrip url = url) (hne : url ≠ "")
    (hparse : pyUrlparse url = some parsed) :
    ∃ p e, normalize_embed url = .ok (p, e) ∧
      force_provider_embed rf tf c url = .ok (c, if p = c then e else url, "") := by
  have hn := normalize_embed_ok url parsed hurl hne hparse
  rcases hnc : normCore url parsed with ⟨p0, e0⟩
  rw [hnc] at hn
  refine ⟨p0, e0, hn, ?_⟩
  rw [force_explicit_match rf tf url c hc, hurl, hn]
  by_cases h : p0 = c
  · simp [h]
  · simp [h]

/-- C2 counterexample: the claim as stated fails on a nonempty source URL
with an unbalanced bracket in the authority: `urlparse` raises
`ValueError("Invalid IPv6 URL")`, which propagates out of
`force_provider_embed` instead of the promised `("youtube", url, "")`. -/
theorem claim2_counterexample :
    force_provider_embed (fun _ => none) (fun _ => none) "youtube" "http://[a" =
      .error .invalidUrl ∧ ("http://[a" : String) ≠ "" := by
  exact ⟨rfl, by decide⟩

/-- C2 witness at a concrete YouTube watch URL. -/
theorem claim2_witness :
    ∃ p e, normalize_embed "https://www.youtube.com/watch?v=abc123" = .ok (p, e) ∧
      force_provider_embed (fun _ => none) (fun _ => none) "youtube"
          "https://www.youtube.com/watch?v=abc123" =
        .ok ("youtube", if p = "youtube" then e else "https://www.youtube.com/watch?v=abc123", "") :=
  claim2_explicit_provider_honored (fun _ => none) (fun _ => none) "youtube"
    "https://www.youtube.com/watch?v=abc123" ⟨"www.youtube.com", "/watch", "v=abc123"⟩
    (Or.inl rfl) rfl (by decide) rfl

/-! ### Claim 3 -/

/-- C3: with an explicit `reddit` or `tiktok` choice and a Fetcher that
yields no markup (`none`, modelling any caught failure, or an empty
`html`), `force_provider_embed` returns `("custom", url, "")` — an
ordinary return, never an exception. -/
theorem claim3_oembed_failure_downgrade (rf tf : String → Option String) (c url : String)
    (hurl : pyStrip url = url) (hne : url ≠ "")
    (hc : (c = "reddit" ∧ (rf url).getD "" = "") ∨ (c = "tiktok" ∧ (tf url).getD "" = "")) :
    force_provider_embed rf tf c url = .ok ("custom", url, "") := by
  rcases hc with ⟨rfl, hf⟩ | ⟨rfl, hf⟩ <;>
    · unfold force_provider_embed
      simp only [hurl, hf]
      rfl

/-- C3 witness: the spec's scenario, a reddit post URL with a failing
oEmbed call. -/
theorem claim3_witness :
    force_provider_embed (fun _ => none) (fun _ => none) "reddit"
        "https://reddit.com/r/x/comments/1/" =
      .ok ("custom", "https://reddit.com/r/x/comments/1/", "") :=
  claim3_oembed_failure_downgrade (fun _ => none) (fun _ => none) "reddit"
    "https://reddit.com/r/x/comments/1/" rfl (by decide) (Or.inl ⟨rfl, rfl⟩)

/-! ### Claim 10 -/

/-- C10: on a blank source URL, the choices `youtube`, `vimeo`, `loom`,
`auto` and `""` raise the empty-URL error, while the explicit `custom`
choice returns `("custom", "", "")` without error and without consulting
the Resolver or the Fetchers (the result is independent of `rf`/`tf`). -/
theorem claim10_blank_url_asymmetry (rf tf : String → Option String) (c url : String)
    (hc : c = "youtube" ∨ c = "vimeo" ∨ c = "loom" ∨ c = "auto" ∨ c = "")
    (hurl : pyStrip url = "") :
    force_provider_embed rf tf c url = .error .emptyUrl ∧
    force_provider_embed rf tf "custom" url = .ok ("custom", "", "") := by
  constructor
  · rcases hc with rfl | rfl | rfl | rfl | rfl <;>
      · unfold force_provider_embed
        simp only [hurl]
        rfl
  · unfold force_provider_embed
    simp only [hurl]
    rfl

/-- C10 witness: a whitespace-only source URL. -/
theorem claim10_witness :
    force_provider_embed (fun _ => none) (fun _ => none) "youtube" "   " = .error .emptyUrl ∧
    force_provider_embed (fun _ => none) (fun _ => none) "custom" "   " =
      .ok ("custom", "", "") :=
  claim10_blank_url_asymmetry (fun _ => none) (fun _ => none) "youtube" "   " (Or.inl rfl) rfl

/-- `find?` commutes with a map that does not change the predicate's verdict. -/
theorem find?_map_pres {α : Type} (f : α → α) (p : α → Bool)
    (hf : ∀ x, p (f x) = p x) (l : List α) :
    (l.map f).find? p = (l.find? p).map f := by
  rw [List.find?_map]
  have h : p ∘ f = p := funext hf
  rw [h]

/-! ### Claim 9 -/

/-- C9: an unauthenticated like on an existing video leaves the state
untouched (no `video_likes` row, no counter change) and responds with the
401 JSON error payload for AJAX callers, otherwise with the
flash-and-redirect. -/
theorem claim9_like_requires_login (st : LikeState) (wantsJson : Bool) (vid : Nat)
    (hv : (st.videos.find? fun p => p.1 == vid).isSome) :
    like st none wantsJson vid =
      (st, if wantsJson then .loginRequired401 else .loginRedirect) := by
  obtain ⟨w, hw⟩ := Option.isSome_iff_exists.mp hv
  unfold like
  rw [hw]

/-- C9 witness on a one-video store. -/
theorem claim9_witness :
    like ⟨[(1, 0)], []⟩ none true 1 = (⟨[(1, 0)], []⟩, .loginRequired401) :=
  claim9_like_requires_login ⟨[(1, 0)], []⟩ true 1 (by decide)

/-! ### Claim 4 -/

/-- C4: liking twice from a state where the pair has no row yet increments
the video's likes counter exactly once, and both calls report
`liked = true` (for AJAX callers the JSON payload carries it; the state
effect is the same for non-AJAX callers, quantified by `j1`/`j2`). -/
theorem claim4_like_idempotent (st : LikeState) (uid vid : Nat) (j1 j2 : Bool)
    (hv : (st.videos.find? fun p => p.1 == vid).isSome)
    (hnew : (st.video_likes.any fun r => r.1 == uid && r.2 == vid) = false) :
    likesOf (like (like st (some uid) j1 vid).1 (some uid) j2 vid).1 vid
        = likesOf st vid + 1
    ∧ (like st (some uid) true vid).2 = .okJson true (likesOf st vid + 1) true
    ∧ (like (like st (some uid) j1 vid).1 (some uid) true vid).2
        = .okJson true (likesOf st vid + 1) true := by
  obtain ⟨w, hw⟩ := Option.isSome_iff_exists.mp hv
  have hw1 : (w.1 == vid) = true := by simpa using List.find?_some hw
  have hpres : ∀ x : Nat × Nat,
      ((if x.1 == vid then (x.1, x.2 + 1) else x).1 == vid) = (x.1 == vid) := by
    intro x
    by_cases h : x.1 = vid <;> simp [h]
  have hfind1 :
      ((st.videos.map fun p => if p.1 == vid then (p.1, p.2 + 1) else p).find?
        fun p => p.1 == vid) = some (w.1, w.2 + 1) := by
    rw [find?_map_pres _ _ hpres, hw]
    show some (if (w.1 == vid) = true then (w.1, w.2 + 1) else w) = some (w.1, w.2 + 1)
    rw [if_pos hw1]
  have hst1 : ∀ j, (like st (some uid) j vid).1 =
      ⟨st.videos.map fun p => if p.1 == vid then (p.1, p.2 + 1) else p,
       (uid, vid) :: st.video_likes⟩ := by
    intro j
    unfold like
    rw [hw]
    simp [hnew]
  have hlikes0 : likesOf st vid = w.2 := by
    unfold likesOf
    rw [hw]
    rfl
  have hlikes1 : likesOf
      ⟨st.videos.map fun p => if p.1 == vid then (p.1, p.2 + 1) else p,
       (uid, vid) :: st.video_likes⟩ vid = w.2 + 1 := by
    unfold likesOf
    rw [hfind1]
    rfl
  have hst2 : (like (like st (some uid) j1 vid).1 (some uid) j2 vid).1 =
      (like st (some uid) j1 vid).1 := by
    rw [hst1 j1]
    unfold like
    rw [hfind1]
    simp
  refine ⟨?_, ?_, ?_⟩
  · rw [hst2, hst1 j1, hlikes1, hlikes0]
  · unfold like
    rw [hw]
    simp only []
    rw [if_pos True.intro, hnew, if_neg Bool.false_ne_true, hlikes1, hlikes0]
  · rw [hst1 j1]
    unfold like
    rw [hfind1]
    simp only [List.any_cons, beq_self_eq_true, Bool.and_self, Bool.true_or]
    rw [if_pos True.intro, if_pos True.intro, hlikes1, hlikes0]

/-- C4 witness: user 7 likes video 1 twice on a fresh store. -/
theorem claim4_witness :
    likesOf (like (like ⟨[(1, 0)], []⟩ (some 7) false 1).1 (some 7) false 1).1 1
        = likesOf ⟨[(1, 0)], []⟩ 1 + 1
    ∧ (like ⟨[(1, 0)], []⟩ (some 7) true 1).2 = .okJson true (likesOf ⟨[(1, 0)], []⟩ 1 + 1) true
    ∧ (like (like ⟨[(1, 0)], []⟩ (some 7) false 1).1 (some 7) true 1).2
        = .okJson true (likesOf ⟨[(1, 0)], []⟩ 1 + 1) true :=
  claim4_like_idempotent ⟨[(1, 0)], []⟩ 7 1 false false (by decide) (by decide)

/-! ### Claim 5 -/

/-- C5: the like operation preserves the counter/row invariant — after any
`like`, every video's likes counter still equals the number of
`video_likes` rows for it (the counter moves only together with a row
insert, in the same commit). -/
theorem claim5_likes_invariant (st : LikeState) (user : Option Nat) (j : Bool) (vid : Nat)
    (hinv : likesInv st) : likesInv (like st user j vid).1 := by
  unfold like
  cases hfind : st.videos.find? fun p => p.1 == vid with
  | none => simpa using hinv
  | some w =>
    cases user with
    | none => simpa using hinv
    | some uid =>
      by_cases hdup : (st.video_likes.any fun r => r.1 == uid && r.2 == vid) = true
      · simpa [hdup] using hinv
      · have hdup' : (st.video_likes.any fun r => r.1 == uid && r.2 == vid) = false :=
          Bool.eq_false_iff.mpr hdup
        simp only [hdup', Bool.false_eq_true, if_false]
        intro p hp
        obtain ⟨p0, hp0, rfl⟩ := List.mem_map.mp hp
        by_cases h : p0.1 = vid
        · simp [h, List.filter_cons, hinv p0 hp0]
        · simp [h, Ne.symm h, List.filter_cons, hinv p0 hp0]

/-- C5 witness: the invariant is preserved on a concrete state. -/
theorem claim5_witness : likesInv (like ⟨[(1, 1), (2, 0)], [(7, 1)]⟩ (some 7) true 2).1 :=
  claim5_likes_invariant ⟨[(1, 1), (2, 0)], [(7, 1)]⟩ (some 7) true 2
    (by unfold likesInv; decide)

/-! ### Claim 6 -/

/-- A conditional update maps to the identity on a list none of whose
elements satisfy the condition. -/
theorem map_upd_of_none {α : Type} (cond : α → Bool) (upd : α → α) (l : List α)
    (h : ∀ r ∈ l, cond r = false) :
    (l.map fun r => if cond r then upd r else r) = l := by
  induction l with
  | nil => rfl
  | cons a t ih =>
    simp only [List.map_cons]
    rw [h a (List.mem_cons_self a t), if_neg Bool.false_ne_true,
      ih fun r hr => h r (List.mem_cons_of_mem a hr)]

/-- C6: from a state with no `watch_history` row for `(uid, vid)`, two
watches of the existing video `vid` by the signed-in user `uid` (at times
`t1` then `t2`, with arbitrary `noview` flags) leave exactly one history
row for the pair, with `watch_count = 2` and `last_watched_at = t2`. -/
theorem claim6_watch_history_upsert (st : WatchState) (uid vid t1 t2 : Nat)
    (nv1 nv2 : Bool)
    (hv : (st.videos.find? fun p => p.1 == vid).isSome)
    (hnew : ∀ r ∈ st.history, (r.user_id == uid && r.video_id == vid) = false) :
    ((watch (watch st (some uid) nv1 t1 vid).1 (some uid) nv2 t2 vid).1.history.filter
        fun r => r.user_id == uid && r.video_id == vid) = [⟨uid, vid, t2, 2⟩] := by
  obtain ⟨w, hw⟩ := Option.isSome_iff_exists.mp hv
  have hany1 : (st.history.any fun r => r.user_id == uid && r.video_id == vid) = false :=
    List.any_eq_false.mpr fun r hr => by rw [hnew r hr]; exact Bool.false_ne_true
  have hst1 : (watch st (some uid) nv1 t1 vid).1 =
      ⟨if nv1 then st.videos
        else st.videos.map fun p => if p.1 == vid then (p.1, p.2 + 1) else p,
       st.history ++ [⟨uid, vid, t1, 1⟩]⟩ := by
    unfold watch
    rw [hw]
    simp only [hany1, Bool.false_eq_true, if_false]
  have hpres : ∀ x : Nat × Nat,
      ((if x.1 == vid then (x.1, x.2 + 1) else x).1 == vid) = (x.1 == vid) := by
    intro x
    by_cases h : x.1 = vid <;> simp [h]
  set st1 := (watch st (some uid) nv1 t1 vid).1 with hst1def
  have hfind2 : ((st1.videos.find? fun p => p.1 == vid)).isSome := by
    rw [hst1]
    cases nv1 with
    | true => simpa using hv
    | false =>
      simp only [Bool.false_eq_true, if_false]
      rw [find?_map_pres _ _ hpres, hw]
      rfl
  obtain ⟨w2, hw2⟩ := Option.isSome_iff_exists.mp hfind2
  have hany2 : ((st1.history.any
      fun r => r.user_id == uid && r.video_id == vid)) = true := by
    rw [hst1]
    simp
  have hst2 : (watch st1 (some uid) nv2 t2 vid).1.history =
      st1.history.map fun r =>
        if r.user_id == uid && r.video_id == vid then
          { r with t := t2, count := r.count + 1 }
        else r := by
    unfold watch
    rw [hw2]
    simp only [hany2, if_true]
  rw [hst2, hst1]
  simp only []
  rw [List.map_append, List.filter_append,
    map_upd_of_none _ _ st.history hnew,
    List.filter_eq_nil_iff.mpr fun r hr => by rw [hnew r hr]; exact Bool.false_ne_true]
  simp

/-- C6 witness: user 7 watches video 1 twice on a fresh store. -/
theorem claim6_witness :
    ((watch (watch ⟨[(1, 0)], []⟩ (some 7) false 11 1).1 (some 7) false 22 1).1.history.filter
        fun r => r.user_id == 7 && r.video_id == 1) = [⟨7, 1, 22, 2⟩] :=
  claim6_watch_history_upsert ⟨[(1, 0)], []⟩ 7 1 11 22 false false (by decide)
    (by intro r hr; cases hr)

/-! ### Claim 8 -/

/-- A Python slice `s[:n]` has length at most `n`. -/
theorem pySlice_le (n : Nat) (s : String) : (pySlice n s).length ≤ n := by
  show (s.data.take n).length ≤ n
  simp [List.length_take]

/-- C8 (amended): a comment with a non-blank body is stored with body
`body[:1000]` and author resolved as: the trimmed explicit author field if
non-empty, else the signed-in user's (non-empty) username, else the
localized anonymous placeholder `t("anon")` for the session language
(`"Anonym"` under the default Swedish, `"Anonymous"` in English); author is
truncated to 50 characters and body to 1000, silently (the insert always
happens). -/
theorem claim8_comment_author_resolution (lang : Lang) (username : Option String)
    (a b : String) (hb : pyStrip b ≠ "") :
    ∃ author body, comment lang username a b = some (author, body) ∧
      author.length ≤ 50 ∧ body.length ≤ 1000 ∧
      body = pySlice 1000 (pyStrip b) ∧
      (pyStrip a ≠ "" → author = pySlice 50 (pyStrip a)) ∧
      (∀ u, pyStrip a = "" → username = some u → u ≠ "" → author = pySlice 50 u) ∧
      (pyStrip a = "" → username = none → author = tAnon lang) := by
  have htan : pySlice 50 (tAnon lang) = tAnon lang := by cases lang <;> rfl
  unfold comment
  rw [if_neg hb]
  by_cases ha : pyStrip a = ""
  · cases username with
    | none =>
      refine ⟨tAnon lang, pySlice 1000 (pyStrip b), ?_, ?_, pySlice_le _ _, rfl, ?_, ?_, ?_⟩
      · simp [ha, htan]
      · rw [← htan]
        exact pySlice_le _ _
      · exact fun h => absurd ha h
      · exact fun u _ hu => by cases hu
      · exact fun _ _ => rfl
    | some u =>
      by_cases hu : u = ""
      · refine ⟨tAnon lang, pySlice 1000 (pyStrip b), ?_, ?_, pySlice_le _ _, rfl, ?_, ?_, ?_⟩
        · simp [ha, hu, htan]
        · rw [← htan]
          exact pySlice_le _ _
        · exact fun h => absurd ha h
        · exact fun u' _ hu' hne' => absurd (by injection hu' with h; rw [← h, hu]) hne'
        · exact fun _ h => by cases h
      · refine ⟨pySlice 50 u, pySlice 1000 (pyStrip b), ?_, pySlice_le _ _,
          pySlice_le _ _, rfl, ?_, ?_, ?_⟩
        · simp [ha, hu]
        · exact fun h => absurd ha h
        · exact fun u' _ hu' _ => by injection hu' with h; rw [h]
        · exact fun _ h => by cases h
  · have hnu : ∀ w : Option String,
        (match w with
          | some u => if pyStrip a = "" then u else pyStrip a
          | none => pyStrip a) = pyStrip a := by
      intro w
      cases w with
      | none => rfl
      | some u => exact if_neg ha
    refine ⟨pySlice 50 (pyStrip a), pySlice 1000 (pyStrip b), ?_, pySlice_le _ _,
      pySlice_le _ _, rfl, fun _ => rfl, ?_, ?_⟩
    · simp only [hnu username]
      rw [if_neg ha]
    · exact fun u h => absurd h ha
    · exact fun h => absurd h ha

/-- C8 counterexample: under the default session language (Swedish), an
anonymous comment with no author field is stored with author `"Anonym"`,
not the literal `"Anonymous"` the claim states. -/
theorem claim8_counterexample :
    comment .sv none "" "hello" = some ("Anonym", "hello") ∧
    ("Anonym" : String) ≠ "Anonymous" := by
  exact ⟨rfl, by decide⟩

/-- C8 witness: a signed-in user, blank author field, long body. -/
theorem claim8_witness :
    ∃ author body, comment .en (some "alice") "" "  hi there  " = some (author, body) ∧
      author.length ≤ 50 ∧ body.length ≤ 1000 ∧
      body = pySlice 1000 (pyStrip "  hi there  ") ∧
      (pyStrip "" ≠ "" → author = pySlice 50 (pyStrip "")) ∧
      (∀ u, pyStrip "" = "" → (some "alice" : Option String) = some u → u ≠ "" →
        author = pySlice 50 u) ∧
      (pyStrip "" = "" → (some "alice" : Option String) = none → author = tAnon .en) :=
  claim8_comment_author_resolution .en (some "alice") "" "  hi there  " (by decide)

/-! ### Claim 7 -/

/-- `minByPos` returns `none` exactly on the empty list, and otherwise an
element of minimal position. -/
theorem minByPos_spec (l : List PItem) :
    (minByPos l = none ↔ l = []) ∧
    ∀ m, minByPos l = some m → m ∈ l ∧ ∀ x ∈ l, m.position ≤ x.position := by
  induction l with
  | nil =>
    refine ⟨⟨fun _ => rfl, fun _ => rfl⟩, fun m hm => ?_⟩
    cases hm
  | cons a t ih =>
    constructor
    · constructor
      · intro h
        exfalso
        unfold minByPos at h
        cases ht : minByPos t with
        | none => rw [ht] at h; cases h
        | some mt =>
          rw [ht] at h
          simp only [] at h
          by_cases hlt : mt.position < a.position
          · rw [if_pos hlt] at h; cases h
          · rw [if_neg hlt] at h; cases h
      · intro h
        cases h
    · intro m hm
      unfold minByPos at hm
      cases ht : minByPos t with
      | none =>
        rw [ht] at hm
        injection hm with hm
        subst hm
        have hte : t = [] := (ih.1).mp ht
        subst hte
        refine ⟨List.mem_cons_self _ _, fun x hx => ?_⟩
        rcases List.mem_cons.mp hx with rfl | hx
        · exact le_refl _
        · cases hx
      | some mt =>
        rw [ht] at hm
        simp only [] at hm
        obtain ⟨hmem, hmin⟩ := ih.2 mt ht
        by_cases hlt : mt.position < a.position
        · rw [if_pos hlt] at hm
          injection hm with hm
          subst hm
          refine ⟨List.mem_cons_of_mem _ hmem, fun x hx => ?_⟩
          rcases List.mem_cons.mp hx with rfl | hx
          · exact le_of_lt hlt
          · exact hmin x hx
        · rw [if_neg hlt] at hm
          injection hm with hm
          subst hm
          refine ⟨List.mem_cons_self _ _, fun x hx => ?_⟩
          rcases List.mem_cons.mp hx with rfl | hx
          · exact le_refl _
          · exact le_trans (not_lt.mp hlt) (hmin x hx)

/-- C7: `get_next_in_playlist_id` returns `none` when the video is not a
member of the playlist; for a member (with the schema-guaranteed unique
row), it returns `none` exactly when no member sits strictly later, and
otherwise some member with the smallest strictly greater position — no
wraparound. -/
theorem claim7_playlist_next (items : List PItem) (pid vid : Nat) :
    ((∀ it ∈ items, (it.playlist_id == pid && it.video_id == vid) = false) →
        get_next_in_playlist_id items pid vid = none)
    ∧ ∀ cur ∈ items, cur.playlist_id = pid → cur.video_id = vid →
        (∀ it ∈ items, it.playlist_id = pid → it.video_id = vid → it = cur) →
        ((get_next_in_playlist_id items pid vid = none →
            ∀ it ∈ items, it.playlist_id = pid → it.position ≤ cur.position)
         ∧ ∀ w, get_next_in_playlist_id items pid vid = some w →
             ∃ it ∈ items, it.playlist_id = pid ∧ it.video_id = w ∧
               cur.position < it.position ∧
               ∀ it2 ∈ items, it2.playlist_id = pid → cur.position < it2.position →
                 it.position ≤ it2.position) := by
  constructor
  · intro h
    unfold get_next_in_playlist_id
    rw [List.find?_eq_none.mpr fun x hx => by rw [h x hx]; exact Bool.false_ne_true]
  · intro cur hcur hpid hvid huniq
    have hfind : (items.find? fun it => it.playlist_id == pid && it.video_id == vid)
        = some cur := by
      cases hf : items.find? fun it => it.playlist_id == pid && it.video_id == vid with
      | none =>
        exfalso
        exact absurd (by simp [hpid, hvid]) (List.find?_eq_none.mp hf cur hcur)
      | some x =>
        have hx1 := List.find?_some hf
        have hx2 := List.mem_of_find?_eq_some hf
        simp only [Bool.and_eq_true, beq_iff_eq] at hx1
        rw [huniq x hx2 hx1.1 hx1.2]
    have hnext : get_next_in_playlist_id items pid vid =
        (minByPos (items.filter fun it =>
          it.playlist_id == pid && cur.position < it.position)).map (·.video_id) := by
      unfold get_next_in_playlist_id
      rw [hfind]
    constructor
    · intro hnone it hit hitpid
      rw [hnext] at hnone
      have hmin_none : minByPos (items.filter fun it =>
          it.playlist_id == pid && cur.position < it.position) = none :=
        Option.map_eq_none'.mp hnone
      have hempty := ((minByPos_spec _).1).mp hmin_none
      by_contra hgt
      have hlt : cur.position < it.position := not_le.mp hgt
      have : it ∈ items.filter fun it =>
          it.playlist_id == pid && cur.position < it.position :=
        List.mem_filter.mpr ⟨hit, by simp [hitpid, hlt]⟩
      rw [hempty] at this
      cases this
    · intro w hw
      rw [hnext] at hw
      obtain ⟨m, hm, hmv⟩ := Option.map_eq_some'.mp hw
      obtain ⟨hmem, hmin⟩ := (minByPos_spec _).2 m hm
      obtain ⟨hmitems, hmpred⟩ := List.mem_filter.mp hmem
      simp only [Bool.and_eq_true, beq_iff_eq, decide_eq_true_eq] at hmpred
      refine ⟨m, hmitems, hmpred.1, hmv, hmpred.2, fun it2 h2 h2pid h2lt => ?_⟩
      exact hmin it2 (List.mem_filter.mpr ⟨h2, by simp [h2pid, h2lt]⟩)

/-- C7 witness: a two-item playlist (positions 1 and 3, gap allowed):
`next` from a non-member is `none`, and `next` from position 1 is the
minimal strictly later member, video 20. -/
theorem claim7_witness :
    get_next_in_playlist_id [⟨1, 10, 1⟩, ⟨1, 20, 3⟩] 1 99 = none
    ∧ ∃ it ∈ [(⟨1, 10, 1⟩ : PItem), ⟨1, 20, 3⟩], it.playlist_id = 1 ∧ it.video_id = 20 ∧
        (1 : Int) < it.position ∧
        ∀ it2 ∈ [(⟨1, 10, 1⟩ : PItem), ⟨1, 20, 3⟩], it2.playlist_id = 1 →
          (1 : Int) < it2.position → it.position ≤ it2.position := by
  constructor
  · exact (claim7_playlist_next [⟨1, 10, 1⟩, ⟨1, 20, 3⟩] 1 99).1 (by decide)
  · exact ((claim7_playlist_next [⟨1, 10, 1⟩, ⟨1, 20, 3⟩] 1 10).2 ⟨1, 10, 1⟩
      (by decide) rfl rfl (by decide)).2 20 rfl

/-! ### Claim 1 -/

/-- C1 (amended): for a trimmed, nonempty, parseable URL whose hostname
does not also contain `reddit.com`, `redd.it`, or `tiktok.com` (those
rules run first), the resolver returns `("youtube",
"https://www.youtube.com/embed/<id>")` where: for a host containing
`youtube.com`, `<id>` is the `v` query parameter, else the `/shorts/<id>`
capture; for a host containing `youtu.be` (when the `youtube.com` rule did
not already produce an id), `<id>` is the nonempty first path segment. -/
theorem claim1_youtube_canonical (url : String) (parsed : PyUrl)
    (hstrip : pyStrip url = url) (hne : url ≠ "")
    (hparse : pyUrlparse url = some parsed)
    (hred : substrIn "reddit.com" (pyLower parsed.hostname) = false)
    (hredd : substrIn "redd.it" (pyLower parsed.hostname) = false)
    (htik : substrIn "tiktok.com" (pyLower parsed.hostname) = false) :
    (∀ vid, substrIn "youtube.com" (pyLower parsed.hostname) = true →
        qsV parsed.query.data = some vid →
        normalize_embed url = .ok ("youtube", "https://www.youtube.com/embed/" ++ vid))
    ∧ (∀ vid, substrIn "youtube.com" (pyLower parsed.hostname) = true →
        qsV parsed.query.data = none →
        scanSeg "/shorts/".data parsed.path.data = some vid →
        normalize_embed url = .ok ("youtube", "https://www.youtube.com/embed/" ++ String.mk vid))
    ∧ ((substrIn "youtube.com" (pyLower parsed.hostname) = false ∨
          (qsV parsed.query.data = none ∧ scanSeg "/shorts/".data parsed.path.data = none)) →
        substrIn "youtu.be" (pyLower parsed.hostname) = true →
        firstSeg parsed.path.data ≠ [] →
        normalize_embed url = .ok ("youtube",
          "https://www.youtube.com/embed/" ++ String.mk (firstSeg parsed.path.data))) := by
  have hn := normalize_embed_ok url parsed hstrip hne hparse
  refine ⟨?_, ?_, ?_⟩
  · intro vid hyt hv
    rw [hn]
    unfold normCore
    simp only [hred, hredd, htik, hyt, hv, Bool.or_self, Bool.false_eq_true, if_false, if_true]
  · intro vid hyt hv hs
    rw [hn]
    unfold normCore
    simp only [hred, hredd, htik, hyt, hv, hs, Bool.or_self, Bool.false_eq_true, if_false,
      if_true, Option.map_some']
  · intro hnoyt hbe hfs
    rw [hn]
    unfold normCore
    have hie : (firstSeg parsed.path.data).isEmpty = false := by
      cases hfsl : firstSeg parsed.path.data with
      | nil => exact absurd hfsl hfs
      | cons c cs => rfl
    rcases hnoyt with hyt | ⟨hv, hs⟩
    · simp only [hred, hredd, htik, hyt, hbe, hie, Bool.or_self, Bool.false_eq_true,
        if_false, if_true]
    · simp only [hred, hredd, htik, hv, hs, hbe, hie, Bool.or_self, Bool.false_eq_true,
        if_false, if_true, Option.map_none', ite_self]

/-- C1 counterexample: a URL whose host contains both `youtube.com` and
`reddit.com` and whose query has a `v` parameter resolves to `reddit`
(that rule runs first), not to the claimed canonical YouTube embed. -/
theorem claim1_counterexample :
    pyUrlparse "https://youtube.com.reddit.com/watch?v=abc" =
      some ⟨"youtube.com.reddit.com", "/watch", "v=abc"⟩
    ∧ substrIn "youtube.com" (pyLower "youtube.com.reddit.com") = true
    ∧ qsV "v=abc".data = some "abc"
    ∧ normalize_embed "https://youtube.com.reddit.com/watch?v=abc" =
        .ok ("reddit", "https://youtube.com.reddit.com/watch?v=abc")
    ∧ normalize_embed "https://youtube.com.reddit.com/watch?v=abc" ≠
        .ok ("youtube", "https://www.youtube.com/embed/abc") := by
  refine ⟨rfl, rfl, rfl, rfl, ?_⟩
  intro h
  rw [show normalize_embed "https://youtube.com.reddit.com/watch?v=abc" =
      .ok ("reddit", "https://youtube.com.reddit.com/watch?v=abc") from rfl] at h
  injection h with h
  have := congrArg Prod.fst h
  simp at this

/-- C1 witness: the three canonical shapes at concrete URLs. -/
theorem claim1_witness :
    normalize_embed "https://www.youtube.com/watch?v=abc123" =
      .ok ("youtube", "https://www.youtube.com/embed/abc123")
    ∧ normalize_embed "https://www.youtube.com/shorts/QQ9z" =
      .ok ("youtube", "https://www.youtube.com/embed/QQ9z")
    ∧ normalize_embed "https://youtu.be/xyz" =
      .ok ("youtube", "https://www.youtube.com/embed/xyz") := by
  refine ⟨?_, ?_, ?_⟩
  · exact (claim1_youtube_canonical "https://www.youtube.com/watch?v=abc123"
      ⟨"www.youtube.com", "/watch", "v=abc123"⟩ rfl (by decide) rfl rfl rfl rfl).1
      "abc123" rfl rfl
  · exact (claim1_youtube_canonical "https://www.youtube.com/shorts/QQ9z"
      ⟨"www.youtube.com", "/shorts/QQ9z", ""⟩ rfl (by decide) rfl rfl rfl rfl).2.1
      "QQ9z".data rfl rfl rfl
  · exact (claim1_youtube_canonical "https://youtu.be/xyz"
      ⟨"youtu.be", "/xyz", ""⟩ rfl (by decide) rfl rfl rfl rfl).2.2
      (Or.inl rfl) rfl (by decide)

end MyTube
